import Mathlib

/-!
Shallow embedding of the Game of Life core of `src/main.rs` (JavaHello/game_life).

The Rust `Universe` struct and its methods are translated into Lean
definitions.  Machine integers are modelled as `Nat` / `Int`; the `u32`
arithmetic in `get_index` (which can wrap) is modelled with an explicit
`% 2^32`, and the `i32 -> u32` casts in `draw_change` are modelled by
`u32ofI32`.  Randomness (`rand::thread_rng` in `gen_map`) is modelled by an
explicit stream `rng : Nat -> Nat` giving the successive `gen_range(0, 10)`
draws.  Drawing calls (`draw_rec`, `draw_title`, HDC parameters) touch no
`Universe` field and are omitted; the `SendMessageW(_, WM_DRAWITEM, ..)`
redraw emissions of `tick_run` are counted explicitly in its result.
-/

/-- The modulus of Rust `u32` arithmetic, 2^32. -/
def U32 : Nat := 4294967296

/-- The first integer not representable in `i32`, 2^31. -/
def I32_BOUND : Nat := 2147483648

/-- Rust: `enum Cell { Alive = 1, Dead = 0 }`. -/
inductive Cell where
  | Alive : Cell
  | Dead : Cell
deriving DecidableEq, Repr, Fintype

/-- The numeric value of a cell, Rust `cell as u8` (`Alive = 1`, `Dead = 0`). -/
def Cell.val : Cell → Nat
  | Cell.Alive => 1
  | Cell.Dead => 0

/-- Rust: `const CELL_SIZE: i32 = 64`. -/
def CELL_SIZE : Nat := 64

/-- Rust struct `Universe`: `count` is the generation counter (`i64`),
`calc_state` the running flag, `draw_state` the render-armed flag. -/
@[ext]
structure Universe where
  width : Nat
  height : Nat
  cells : List Cell
  count : Int
  calc_state : Bool
  draw_state : Bool
deriving DecidableEq, Repr

namespace Universe

/-- Rust `Universe::gen_map`: `(0..width*height).map(|_| { let r = rag.gen_range(0,10);
if r > 5 { Alive } else { Dead } }).collect()`; the i-th random draw is `rng i`. -/
def gen_map (width height : Nat) (rng : Nat → Nat) : List Cell :=
  (List.range (width * height)).map (fun i => if rng i > 5 then Cell.Alive else Cell.Dead)

/-- Rust `Universe::new`: `width = height = CELL_SIZE as u32`, randomized cells,
`count = 0`, `calc_state = true`, `draw_state = true`. -/
def new (rng : Nat → Nat) : Universe :=
  { width := CELL_SIZE
    height := CELL_SIZE
    cells := gen_map CELL_SIZE CELL_SIZE rng
    count := 0
    calc_state := true
    draw_state := true }

/-- Rust `Universe::get_index`: `(row * self.width + column) as usize`, where
`row * self.width + column` is computed in `u32` arithmetic (hence `% 2^32`). -/
def get_index (u : Universe) (row column : Nat) : Nat :=
  (row * u.width + column) % U32

/-- Rust `Universe::set_cell`: `self.cells[index] = cell` (index always in
range at every call site; `List.set` is the total model of the store). -/
def set_cell (u : Universe) (cell : Cell) (c r : Nat) : Universe :=
  { u with cells := u.cells.set (u.get_index r c) cell }

/-- Rust `Universe::live_neighbor_count`: iterates `delta_row` over
`[self.height - 1, 0, 1]` and `delta_col` over `[self.width - 1, 0, 1]`,
skips the `(0, 0)` pair, wraps with `% height` / `% width`, and sums
`self.cells[idx] as u8`.  The `u32` additions `row + delta_row` and
`column + delta_col` are reduced `% 2^32` before the wrap, as in Rust. -/
def live_neighbor_count (u : Universe) (row column : Nat) : Nat :=
  [u.height - 1, 0, 1].foldl (fun count delta_row =>
    [u.width - 1, 0, 1].foldl (fun count delta_col =>
      if delta_row = 0 ∧ delta_col = 0 then count
      else
        let neighbor_row := ((row + delta_row) % U32) % u.height
        let neighbor_col := ((column + delta_col) % U32) % u.width
        let idx := u.get_index neighbor_row neighbor_col
        count + (u.cells.getD idx Cell.Dead).val) count) 0

/-- The per-cell transition `match` inside Rust `Universe::tick`, in source
order: `(Alive, x) if x < 2 => Dead`, `(Alive, 2) | (Alive, 3) => Alive`,
`(Alive, x) if x > 3 => Dead`, `(Dead, 3) => Alive`, `(otherwise, _) => otherwise`. -/
def next_cell (cell : Cell) (live_neighbors : Nat) : Cell :=
  if cell = Cell.Alive ∧ live_neighbors < 2 then Cell.Dead
  else if cell = Cell.Alive ∧ (live_neighbors = 2 ∨ live_neighbors = 3) then Cell.Alive
  else if cell = Cell.Alive ∧ live_neighbors > 3 then Cell.Dead
  else if cell = Cell.Dead ∧ live_neighbors = 3 then Cell.Alive
  else cell

/-- Rust `Universe::tick`: clones `cells` into `next`, then for `row in
0..height`, `col in 0..width` writes `next[idx] = next_cell(self.cells[idx],
live_neighbor_count(row, col))` — every read is from the pre-tick `self.cells`
— then `self.cells = next; self.count += 1`. -/
def tick (u : Universe) : Universe :=
  let next :=
    (List.range u.height).foldl (fun next row =>
      (List.range u.width).foldl (fun next col =>
        let idx := u.get_index row col
        let cell := u.cells.getD idx Cell.Dead
        let live_neighbors := u.live_neighbor_count row col
        next.set idx (next_cell cell live_neighbors)) next) u.cells
  { u with cells := next, count := u.count + 1 }

/-- Rust `Universe::dead_all`: `count = 0`; `cells[i] = Dead` for
`i in 0..width*height`; `stop_calc()`; `start_draw()`. -/
def dead_all (u : Universe) : Universe :=
  { u with
    count := 0
    cells := (List.range (u.width * u.height)).foldl
      (fun cells i => cells.set i Cell.Dead) u.cells
    calc_state := false
    draw_state := true }

/-- Rust `Universe::reset`: `count = 0`; `start_draw()`;
`cells = gen_map(width, height)` with fresh randomness `rng`. -/
def reset (u : Universe) (rng : Nat → Nat) : Universe :=
  { u with
    count := 0
    draw_state := true
    cells := gen_map u.width u.height rng }

/-- Rust `Universe::is_calc_stop`: `!self.calc_state`. -/
def is_calc_stop (u : Universe) : Bool := !u.calc_state

/-- Rust `Universe::is_draw_stop`: `!self.draw_state`. -/
def is_draw_stop (u : Universe) : Bool := !u.draw_state

/-- Rust `Universe::stop_draw`: `draw_state = false`. -/
def stop_draw (u : Universe) : Universe := { u with draw_state := false }

/-- Rust `Universe::start_draw`: `draw_state = true`. -/
def start_draw (u : Universe) : Universe := { u with draw_state := true }

/-- Rust `Universe::stop_calc`: `calc_state = false`. -/
def stop_calc (u : Universe) : Universe := { u with calc_state := false }

/-- Rust `Universe::change_calc_state`: `calc_state = !calc_state`. -/
def change_calc_state (u : Universe) : Universe := { u with calc_state := !u.calc_state }

/-- Rust `Universe::change_draw_state`: `draw_state = !draw_state`. -/
def change_draw_state (u : Universe) : Universe := { u with draw_state := !u.draw_state }

/-- Rust `Universe::change_state`: `change_calc_state(); change_draw_state()`. -/
def change_state (u : Universe) : Universe := u.change_calc_state.change_draw_state

/-- Rust `i32 -> u32` cast (`c as u32`): wrap, as in two-complement, into `[0, 2^32)`. -/
def u32ofI32 (i : Int) : Nat := (i % (U32 : Int)).toNat

/-- Rust `u32 -> i32` cast (`self.width as i32`): values `>= 2^31` wrap negative. -/
def i32ofU32 (n : Nat) : Int :=
  if n < I32_BOUND then (n : Int) else (n : Int) - (U32 : Int)

/-- Rust `Universe::draw_change` (the interactive edit): returns unchanged if
`c >= self.width as i32 || r >= self.height as i32`, else
`set_cell(cell, c as u32, r as u32)`.  The `draw_rec` call mutates no
`Universe` field and is omitted. -/
def draw_change (u : Universe) (cell : Cell) (c r : Int) : Universe :=
  if c ≥ i32ofU32 u.width ∨ r ≥ i32ofU32 u.height then u
  else u.set_cell cell (u32ofI32 c) (u32ofI32 r)

end Universe

/-- Rust timer callback `tick_run`: if `!is_calc_stop` then `tick()` else
remember `stop_draw = true`; if `!is_draw_stop` emit one `WM_DRAWITEM` redraw
(the handler only reads state); if `stop_draw && !is_draw_stop` then
`stop_draw()`.  Returns the new state and the number of redraws emitted. -/
def tick_run (u : Universe) : Universe × Nat :=
  let stopDraw := u.is_calc_stop
  let u1 := if !u.is_calc_stop then u.tick else u
  let redraws := if !u1.is_draw_stop then 1 else 0
  let u2 := if stopDraw && !u1.is_draw_stop then u1.stop_draw else u1
  (u2, redraws)

/-! ### Spec-side definitions (for refinement comparison) and concrete instances -/

/-- The transition rule exactly as the rule table of the spec words it:
Alive with `n < 2` becomes Dead; Alive with `n ∈ {2,3}` stays Alive; Alive
with `n > 3` becomes Dead; Dead with `n = 3` becomes Alive; every other
combination is unchanged.  Stated separately from `Universe.next_cell`
(translated from the source `match`) so that the two can be compared. -/
def specTransitionRule (cell : Cell) (n : Nat) : Cell :=
  match cell with
  | Cell.Alive => if n < 2 then Cell.Dead else if n = 2 ∨ n = 3 then Cell.Alive else Cell.Dead
  | Cell.Dead => if n = 3 then Cell.Alive else Cell.Dead

/-- The neighbor count exactly as the spec words it: the number of Alive
cells among the 8 Moore-neighborhood positions, the neighbor row/col taken
as `(row + deltaRow) mod height` / `(col + deltaCol) mod width` for
`deltaRow, deltaCol ∈ {-1, 0, +1}` excluding the `(0,0)` offset, addressed
through the row-major index map.  Stated separately from
`Universe.live_neighbor_count` (translated from the source) for comparison. -/
def mooreCount (u : Universe) (row col : Nat) : Nat :=
  ([-1, 0, 1] : List Int).foldl (fun acc deltaRow =>
    ([-1, 0, 1] : List Int).foldl (fun acc deltaCol =>
      if deltaRow = 0 ∧ deltaCol = 0 then acc
      else
        let nr := (((row : Int) + deltaRow) % (u.height : Int)).toNat
        let nc := (((col : Int) + deltaCol) % (u.width : Int)).toNat
        acc + (u.cells.getD (nr * u.width + nc) Cell.Dead).val) acc) 0

/-- The states of this program: the `Universe` built by `Universe::new` and
everything obtainable from it through the operations the source ever calls
on the shared `UNIVERSE` (timer tick, F4 `dead_all`, F5 `reset`, F2
`change_state`, interactive `draw_change`, and the draw-flag toggles). -/
inductive Reachable : Universe → Prop where
  | new (rng : Nat → Nat) : Reachable (Universe.new rng)
  | tick {u : Universe} : Reachable u → Reachable u.tick
  | dead_all {u : Universe} : Reachable u → Reachable u.dead_all
  | reset {u : Universe} (rng : Nat → Nat) : Reachable u → Reachable (u.reset rng)
  | draw_change {u : Universe} (cell : Cell) (c r : Int) :
      Reachable u → Reachable (u.draw_change cell c r)
  | start_draw {u : Universe} : Reachable u → Reachable u.start_draw
  | stop_draw {u : Universe} : Reachable u → Reachable u.stop_draw
  | stop_calc {u : Universe} : Reachable u → Reachable u.stop_calc
  | change_calc_state {u : Universe} : Reachable u → Reachable u.change_calc_state
  | change_draw_state {u : Universe} : Reachable u → Reachable u.change_draw_state
  | change_state {u : Universe} : Reachable u → Reachable u.change_state

/-- A degenerate randomness stream: every `gen_range(0,10)` draw is `0`,
so `gen_map` produces an all-Dead fill. -/
def rng0 : Nat → Nat := fun _ => 0

/-- A concrete 5×5 universe holding a horizontal blinker on row 2
(columns 1, 2, 3 Alive). -/
def blinkerU : Universe :=
  { width := 5
    height := 5
    cells := (List.range 25).map
      (fun i => if i = 11 ∨ i = 12 ∨ i = 13 then Cell.Alive else Cell.Dead)
    count := 0
    calc_state := true
    draw_state := true }

/-- A concrete 2×2 universe that is paused (`calc_state = false`) with
rendering armed (`draw_state = true`). -/
def pausedU : Universe :=
  { width := 2
    height := 2
    cells := [Cell.Alive, Cell.Dead, Cell.Dead, Cell.Dead]
    count := 7
    calc_state := false
    draw_state := true }

/-- A concrete 2×2 all-Dead universe. -/
def deadU : Universe :=
  { width := 2
    height := 2
    cells := [Cell.Dead, Cell.Dead, Cell.Dead, Cell.Dead]
    count := 3
    calc_state := true
    draw_state := false }

/-! ### Generic lemmas about folds of `List.set` -/

/-- A fold whose step is the identity on accumulators satisfying `P`, applied
to an accumulator satisfying `P`, is the identity. -/
theorem foldl_fixed {α β : Type} (P : β → Prop) (idxs : List α) (F : β → α → β)
    (hF : ∀ acc a, P acc → F acc a = acc) :
    ∀ acc, P acc → idxs.foldl F acc = acc := by
  induction idxs with
  | nil => intro acc _; rfl
  | cons a rest ih =>
    intro acc hacc
    simp only [List.foldl_cons, hF acc a hacc]
    exact ih acc hacc

/-- A fold whose step preserves length preserves length. -/
theorem foldl_length {α : Type} (idxs : List α) (F : List Cell → α → List Cell)
    (hF : ∀ acc a, (F acc a).length = acc.length) :
    ∀ acc, (idxs.foldl F acc).length = acc.length := by
  induction idxs with
  | nil => intro acc; rfl
  | cons a rest ih =>
    intro acc
    simp only [List.foldl_cons]
    rw [ih (F acc a), hF acc a]

/-- Two folds over the same list agree when the step functions agree on the
members of the list. -/
theorem foldl_congr_mem {α β : Type} (idxs : List α) (F G : β → α → β)
    (h : ∀ acc a, a ∈ idxs → F acc a = G acc a) :
    ∀ acc, idxs.foldl F acc = idxs.foldl G acc := by
  induction idxs with
  | nil => intro acc; rfl
  | cons a rest ih =>
    intro acc
    simp only [List.foldl_cons]
    rw [h acc a (List.mem_cons_self a rest)]
    exact ih (fun acc a ha => h acc a (List.mem_cons_of_mem _ ha)) (G acc a)

/-- Writing `g 0, …, g (n-1)` at consecutive positions `base, …, base+n-1`:
the element at `j` afterwards. -/
theorem offset_fold_getElem? (g : Nat → Cell) (acc : List Cell) (base n j : Nat) :
    ((List.range n).foldl (fun a col => a.set (base + col) (g col)) acc)[j]? =
      if base ≤ j ∧ j < base + n then
        (if j < acc.length then some (g (j - base)) else none)
      else acc[j]? := by
  induction n with
  | zero =>
    simp only [List.range_zero, List.foldl_nil]
    have : ¬(base ≤ j ∧ j < base + 0) := by omega
    rw [if_neg this]
  | succ n ih =>
    rw [List.range_succ, List.foldl_append, List.foldl_cons, List.foldl_nil]
    have hlen : ((List.range n).foldl (fun a col => a.set (base + col) (g col)) acc).length
        = acc.length :=
      foldl_length _ _ (fun acc a => List.length_set acc _ _) acc
    rw [List.getElem?_set, hlen, ih]
    by_cases hj : base + n = j
    · rw [if_pos hj]
      subst hj
      rw [if_pos (by omega : base ≤ base + n ∧ base + n < base + (n + 1))]
      by_cases hlt : base + n < acc.length
      · rw [if_pos hlt, if_pos hlt]
        have he : base + n - base = n := by omega
        rw [he]
      · rw [if_neg hlt, if_neg hlt]
    · rw [if_neg hj]
      by_cases h1 : base ≤ j ∧ j < base + n
      · rw [if_pos h1, if_pos (show base ≤ j ∧ j < base + (n + 1) by omega)]
      · rw [if_neg h1, if_neg (show ¬(base ≤ j ∧ j < base + (n + 1)) by omega)]

/-- Row-major double fold writing `g row col` at position `row * w + col`:
the element at `j` afterwards is `g (j / w) (j % w)` for `j < h * w`. -/
theorem grid_fold_getElem? (g : Nat → Nat → Cell) (cs : List Cell) (h w j : Nat) :
    ((List.range h).foldl (fun acc row =>
        (List.range w).foldl (fun a col => a.set (row * w + col) (g row col)) acc) cs)[j]? =
      if j < h * w then
        (if j < cs.length then some (g (j / w) (j % w)) else none)
      else cs[j]? := by
  induction h with
  | zero =>
    simp only [List.range_zero, List.foldl_nil, Nat.zero_mul]
    rw [if_neg (by omega)]
  | succ h ih =>
    rw [List.range_succ, List.foldl_append, List.foldl_cons, List.foldl_nil,
      offset_fold_getElem?]
    have hlen : ((List.range h).foldl (fun acc row =>
        (List.range w).foldl (fun a col => a.set (row * w + col) (g row col)) acc) cs).length
        = cs.length := by
      refine foldl_length _ _ (fun acc a => ?_) cs
      exact foldl_length _ _ (fun acc a => List.length_set acc _ _) acc
    have hmul : (h + 1) * w = h * w + w := by ring
    by_cases h1 : h * w ≤ j ∧ j < h * w + w
    · rw [if_pos h1, hlen]
      have hw0 : 0 < w := by omega
      have hdiv : j / w = h := by
        obtain ⟨r, hr, rfl⟩ : ∃ r, r < w ∧ j = r + h * w := ⟨j - h * w, by omega, by omega⟩
        rw [Nat.add_mul_div_right _ _ hw0, Nat.div_eq_of_lt hr, Nat.zero_add]
      have hmod : j % w = j - h * w := by
        obtain ⟨r, hr, rfl⟩ : ∃ r, r < w ∧ j = r + h * w := ⟨j - h * w, by omega, by omega⟩
        rw [Nat.add_mul_mod_self_right, Nat.mod_eq_of_lt hr]
        omega
      rw [if_pos (by omega : j < (h + 1) * w)]
      rw [hdiv, hmod]
    · rw [if_neg h1, ih]
      by_cases h2 : j < h * w
      · rw [if_pos h2, if_pos (show j < (h + 1) * w by omega)]
      · rw [if_neg h2, if_neg (show ¬j < (h + 1) * w by omega)]

/-! ### The transition rule and tick characterization -/

/-- The source `match` in `tick` computes exactly the rule table of the spec. -/
theorem next_cell_eq_specTransitionRule (cell : Cell) (n : Nat) :
    Universe.next_cell cell n = specTransitionRule cell n := by
  cases cell <;>
    simp only [Universe.next_cell, specTransitionRule, true_and, false_and, if_false,
      reduceCtorEq, and_false, and_true] <;>
    split_ifs <;> first | rfl | omega

/-- Under the grid-size bound, every `get_index` of an in-range pair is the
plain row-major index. -/
theorem get_index_eq (u : Universe) (hU : u.width * u.height ≤ U32)
    (row col : Nat) (hr : row < u.height) (hc : col < u.width) :
    u.get_index row col = row * u.width + col := by
  unfold Universe.get_index
  apply Nat.mod_eq_of_lt
  calc row * u.width + col < row * u.width + u.width := by omega
    _ = (row + 1) * u.width := by ring
    _ ≤ u.height * u.width := Nat.mul_le_mul_right _ (by omega)
    _ = u.width * u.height := Nat.mul_comm _ _
    _ ≤ U32 := hU

/-- The double fold of `tick`, with its `u32` index arithmetic collapsed to plain
row-major indices. -/
theorem tick_cells_eq_grid_fold (u : Universe) (hU : u.width * u.height ≤ U32) :
    u.tick.cells = (List.range u.height).foldl (fun acc row =>
        (List.range u.width).foldl (fun a col =>
          a.set (row * u.width + col)
            (Universe.next_cell (u.cells.getD (row * u.width + col) Cell.Dead)
              (u.live_neighbor_count row col))) acc) u.cells := by
  simp only [Universe.tick]
  refine foldl_congr_mem _ _ _ (fun acc row hrow => ?_) u.cells
  refine foldl_congr_mem _ _ _ (fun a col hcol => ?_) acc
  rw [get_index_eq u hU row col (List.mem_range.mp hrow) (List.mem_range.mp hcol)]

/-- After `tick`, the cell at the row-major index of an in-range `(row, col)`
is the source transition applied to the pre-tick cell and pre-tick neighbor
count. -/
theorem tick_getElem? (u : Universe) (hw : u.cells.length = u.width * u.height)
    (hU : u.width * u.height ≤ U32) (row col : Nat)
    (hr : row < u.height) (hc : col < u.width) :
    u.tick.cells[row * u.width + col]? =
      some (Universe.next_cell (u.cells.getD (row * u.width + col) Cell.Dead)
        (u.live_neighbor_count row col)) := by
  rw [tick_cells_eq_grid_fold u hU, grid_fold_getElem?]
  have hw0 : 0 < u.width := by omega
  have hlt : row * u.width + col < u.height * u.width := by
    calc row * u.width + col < row * u.width + u.width := by omega
      _ = (row + 1) * u.width := by ring
      _ ≤ u.height * u.width := Nat.mul_le_mul_right _ (by omega)
  have hlen : row * u.width + col < u.cells.length := by
    rw [hw]; calc row * u.width + col < u.height * u.width := hlt
      _ = u.width * u.height := Nat.mul_comm _ _
  rw [if_pos hlt, if_pos hlen]
  have hdiv : (row * u.width + col) / u.width = row := by
    rw [Nat.add_comm, Nat.add_mul_div_right _ _ hw0, Nat.div_eq_of_lt hc, Nat.zero_add]
  have hmod : (row * u.width + col) % u.width = col := by
    rw [Nat.add_comm, Nat.add_mul_mod_self_right, Nat.mod_eq_of_lt hc]
  rw [hdiv, hmod]

/-! ### Claims C1, C3, C4, C7, C8 -/

/-- C1: after one `tick`, every in-range cell equals the transition rule
table of the spec applied to the pre-tick state of that cell and its pre-tick
live-neighbor count; every read on the right-hand side is from the pre-tick
universe `u`, so all transitions within one tick are simultaneous. -/
theorem C1_tick_follows_rule (u : Universe)
    (hw : u.cells.length = u.width * u.height) (hU : u.width * u.height ≤ U32)
    (row col : Nat) (hr : row < u.height) (hc : col < u.width) :
    u.tick.cells[row * u.width + col]? =
      some (specTransitionRule (u.cells.getD (row * u.width + col) Cell.Dead)
        (u.live_neighbor_count row col)) := by
  rw [tick_getElem? u hw hU row col hr hc, next_cell_eq_specTransitionRule]

/-- Witness for C1 at the blinker universe, cell (1, 2). -/
theorem C1_tick_follows_rule_witness :
    blinkerU.tick.cells[1 * blinkerU.width + 2]? =
      some (specTransitionRule (blinkerU.cells.getD (1 * blinkerU.width + 2) Cell.Dead)
        (blinkerU.live_neighbor_count 1 2)) :=
  C1_tick_follows_rule blinkerU (by decide) (by decide) 1 2 (by decide) (by decide)

/-- C3 counterexample: `tick` does not leave the generation counter
unchanged — on the concrete all-Dead 2×2 universe it increments `count`
from 3 to 4, refuting "tick does not touch counters". -/
theorem C3_counterexample : ¬ deadU.tick.count = deadU.count := by decide

/-- C3 amended: `tick` changes nothing except the cell contents and the
generation counter; it leaves both flags and the dimensions unchanged and
increments the generation counter by exactly 1 itself (the caller
`tick_run` performs no separate increment). -/
theorem C3_tick_frame_amended (u : Universe) :
    u.tick.count = u.count + 1 ∧ u.tick.calc_state = u.calc_state ∧
    u.tick.draw_state = u.draw_state ∧ u.tick.width = u.width ∧
    u.tick.height = u.height :=
  ⟨rfl, rfl, rfl, rfl, rfl⟩

/-- C4: a `tick_run` that starts with `running = false` (`calc_state = false`)
and `renderArmed = true` (`draw_state = true`) leaves the grid cells and the
generation counter unchanged, emits exactly one redraw, and leaves
`renderArmed = false` afterward. -/
theorem C4_tick_run_single_shot_redraw (u : Universe)
    (hc : u.calc_state = false) (hd : u.draw_state = true) :
    (tick_run u).1.cells = u.cells ∧ (tick_run u).1.count = u.count ∧
    (tick_run u).2 = 1 ∧ (tick_run u).1.draw_state = false := by
  simp [tick_run, Universe.is_calc_stop, Universe.is_draw_stop, Universe.stop_draw, hc, hd]

/-- Witness for C4 at a concrete paused, render-armed universe. -/
theorem C4_tick_run_single_shot_redraw_witness :
    (tick_run pausedU).1.cells = pausedU.cells ∧
    (tick_run pausedU).1.count = pausedU.count ∧
    (tick_run pausedU).2 = 1 ∧ (tick_run pausedU).1.draw_state = false :=
  C4_tick_run_single_shot_redraw pausedU (by decide) (by decide)

/-- C7: `reset` zeroes the generation counter, arms rendering, replaces the
grid contents with a fresh random fill of length `width * height`, and
leaves `running`, `width`, and `height` unchanged. -/
theorem C7_reset_frame (u : Universe) (rng : Nat → Nat) :
    (u.reset rng).count = 0 ∧ (u.reset rng).draw_state = true ∧
    (u.reset rng).cells = Universe.gen_map u.width u.height rng ∧
    (u.reset rng).cells.length = u.width * u.height ∧
    (u.reset rng).calc_state = u.calc_state ∧
    (u.reset rng).width = u.width ∧ (u.reset rng).height = u.height := by
  refine ⟨rfl, rfl, rfl, ?_, rfl, rfl, rfl⟩
  simp [Universe.reset, Universe.gen_map]

/-- C8: an edit whose (i32) coordinates satisfy `col ≥ width` or
`row ≥ height` is a silent no-op: the whole state, grid, counter and flags
included, is returned unchanged. -/
theorem C8_edit_out_of_range_noop (u : Universe) (cell : Cell) (c r : Int)
    (hcl : -(I32_BOUND : Int) ≤ c) (hcu : c < (I32_BOUND : Int))
    (hrl : -(I32_BOUND : Int) ≤ r) (hru : r < (I32_BOUND : Int))
    (hor : (u.width : Int) ≤ c ∨ (u.height : Int) ≤ r) :
    u.draw_change cell c r = u := by
  have hguard : c ≥ Universe.i32ofU32 u.width ∨ r ≥ Universe.i32ofU32 u.height := by
    rcases hor with h | h
    · left
      have hwlt : u.width < I32_BOUND := by exact_mod_cast lt_of_le_of_lt h hcu
      simp only [Universe.i32ofU32, if_pos hwlt]
      exact h
    · right
      have hhlt : u.height < I32_BOUND := by exact_mod_cast lt_of_le_of_lt h hru
      simp only [Universe.i32ofU32, if_pos hhlt]
      exact h
  unfold Universe.draw_change
  rw [if_pos hguard]

/-- Witness for C8: on the 5×5 blinker universe, `edit(Alive, col = width,
row = 0)` leaves the state unchanged. -/
theorem C8_edit_out_of_range_noop_witness :
    blinkerU.draw_change Cell.Alive 5 0 = blinkerU :=
  C8_edit_out_of_range_noop blinkerU Cell.Alive 5 0
    (by decide) (by decide) (by decide) (by decide) (by decide)

/-! ### All-Dead grids (C10) -/

/-- In an all-Dead grid, every (defaulted) cell read returns `Dead`. -/
theorem getD_all_dead (u : Universe) (hall : ∀ x ∈ u.cells, x = Cell.Dead) (i : Nat) :
    u.cells.getD i Cell.Dead = Cell.Dead := by
  rcases h : u.cells[i]? with _ | x
  · simp [List.getD, h]
  · have hx : x ∈ u.cells := List.getElem?_mem h
    simp [List.getD, h, hall x hx]

/-- In an all-Dead grid, every live-neighbor count is `0`. -/
theorem live_neighbor_count_all_dead (u : Universe)
    (hall : ∀ x ∈ u.cells, x = Cell.Dead) (row col : Nat) :
    u.live_neighbor_count row col = 0 := by
  simp only [Universe.live_neighbor_count, List.foldl_cons, List.foldl_nil,
    getD_all_dead u hall, Cell.val, Nat.add_zero, ite_self]

/-- Setting `Dead` into an all-Dead list is a no-op. -/
theorem set_dead_all_dead (l : List Cell) (hall : ∀ x ∈ l, x = Cell.Dead) (i : Nat) :
    l.set i Cell.Dead = l := by
  apply List.ext_getElem?
  intro j
  rw [List.getElem?_set]
  by_cases hij : i = j
  · subst hij
    by_cases hlen : i < l.length
    · rw [if_pos rfl, if_pos hlen, List.getElem?_eq_getElem hlen,
        hall _ (List.getElem_mem hlen)]
    · rw [if_pos rfl, if_neg hlen, List.getElem?_eq_none (by omega)]
  · rw [if_neg hij]

/-- C10: the all-Dead grid is a fixed point of `tick`: the post-tick cells
are the pre-tick cells, and in particular every cell is still Dead (a Dead
cell has 0 live neighbors, so no birth occurs). -/
theorem C10_all_dead_fixed_point (u : Universe)
    (hall : ∀ x ∈ u.cells, x = Cell.Dead) :
    u.tick.cells = u.cells ∧ ∀ x ∈ u.tick.cells, x = Cell.Dead := by
  have hcells : u.tick.cells = u.cells := by
    simp only [Universe.tick]
    refine foldl_fixed (fun acc => ∀ x ∈ acc, x = Cell.Dead) _ _
      (fun acc row hacc => ?_) u.cells hall
    refine foldl_fixed (fun acc => ∀ x ∈ acc, x = Cell.Dead) _ _
      (fun a col ha => ?_) acc hacc
    have hval : Universe.next_cell (u.cells.getD (u.get_index row col) Cell.Dead)
        (u.live_neighbor_count row col) = Cell.Dead := by
      rw [getD_all_dead u hall, live_neighbor_count_all_dead u hall]
      rfl
    rw [hval]
    exact set_dead_all_dead a ha _
  exact ⟨hcells, by rw [hcells]; exact hall⟩

/-- Witness for C10 at the concrete 2×2 all-Dead universe. -/
theorem C10_all_dead_fixed_point_witness : deadU.tick.cells = deadU.cells :=
  (C10_all_dead_fixed_point deadU (by decide)).1

/-! ### Length preservation and the reachable-state invariant (C5) -/

/-- Operation `tick` preserves the number of cells. -/
theorem tick_cells_length (u : Universe) : u.tick.cells.length = u.cells.length := by
  simp only [Universe.tick]
  refine foldl_length _ _ (fun acc row => ?_) u.cells
  exact foldl_length _ _ (fun a col => List.length_set a _ _) acc

/-- Operation `dead_all` preserves the number of cells. -/
theorem dead_all_cells_length (u : Universe) :
    u.dead_all.cells.length = u.cells.length := by
  simp only [Universe.dead_all]
  exact foldl_length _ _ (fun a i => List.length_set a _ _) u.cells

/-- Function `gen_map` always produces exactly `width * height` cells. -/
theorem gen_map_length (width height : Nat) (rng : Nat → Nat) :
    (Universe.gen_map width height rng).length = width * height := by
  simp [Universe.gen_map]

/-- Operation `draw_change` preserves the number of cells. -/
theorem draw_change_cells_length (u : Universe) (cell : Cell) (c r : Int) :
    (u.draw_change cell c r).cells.length = u.cells.length := by
  unfold Universe.draw_change
  split
  · rfl
  · exact List.length_set u.cells _ _

/-- Operation `tick` leaves `width` and `height` unchanged. -/
theorem tick_dims (u : Universe) : u.tick.width = u.width ∧ u.tick.height = u.height :=
  ⟨rfl, rfl⟩

/-- Operation `dead_all` leaves `width` and `height` unchanged. -/
theorem dead_all_dims (u : Universe) :
    u.dead_all.width = u.width ∧ u.dead_all.height = u.height :=
  ⟨rfl, rfl⟩

/-- Operation `reset` leaves `width` and `height` unchanged. -/
theorem reset_dims (u : Universe) (rng : Nat → Nat) :
    (u.reset rng).width = u.width ∧ (u.reset rng).height = u.height :=
  ⟨rfl, rfl⟩

/-- Operation `draw_change` leaves `width` and `height` unchanged. -/
theorem draw_change_dims (u : Universe) (cell : Cell) (c r : Int) :
    (u.draw_change cell c r).width = u.width ∧
    (u.draw_change cell c r).height = u.height := by
  unfold Universe.draw_change
  split
  · exact ⟨rfl, rfl⟩
  · exact ⟨rfl, rfl⟩

/-- C5: every reachable state has exactly `width * height` cells, and its
`width` and `height` are still the construction-time values (`CELL_SIZE`),
so no operation ever changes them. -/
theorem C5_reachable_invariant (u : Universe) (h : Reachable u) :
    u.cells.length = u.width * u.height ∧
    u.width = CELL_SIZE ∧ u.height = CELL_SIZE := by
  induction h with
  | new rng =>
      refine ⟨?_, rfl, rfl⟩
      simp only [Universe.new, Universe.gen_map, List.length_map, List.length_range]
  | tick _ ih =>
      obtain ⟨h1, h2, h3⟩ := ih
      obtain ⟨hw, hh⟩ := tick_dims _
      exact ⟨by rw [tick_cells_length, hw, hh]; exact h1, by rw [hw]; exact h2,
        by rw [hh]; exact h3⟩
  | dead_all _ ih =>
      obtain ⟨h1, h2, h3⟩ := ih
      obtain ⟨hw, hh⟩ := dead_all_dims _
      exact ⟨by rw [dead_all_cells_length, hw, hh]; exact h1, by rw [hw]; exact h2,
        by rw [hh]; exact h3⟩
  | reset rng _ ih =>
      obtain ⟨h1, h2, h3⟩ := ih
      obtain ⟨hw, hh⟩ := reset_dims _ rng
      exact ⟨by rw [hw, hh]; exact gen_map_length _ _ rng, by rw [hw]; exact h2,
        by rw [hh]; exact h3⟩
  | draw_change cell c r _ ih =>
      obtain ⟨h1, h2, h3⟩ := ih
      obtain ⟨hw, hh⟩ := draw_change_dims _ cell c r
      exact ⟨by rw [draw_change_cells_length, hw, hh]; exact h1, by rw [hw]; exact h2,
        by rw [hh]; exact h3⟩
  | start_draw _ ih => exact ih
  | stop_draw _ ih => exact ih
  | stop_calc _ ih => exact ih
  | change_calc_state _ ih => exact ih
  | change_draw_state _ ih => exact ih
  | change_state _ ih => exact ih

/-- Witness for C5 at the freshly constructed universe. -/
theorem C5_reachable_invariant_witness :
    (Universe.new rng0).cells.length = (Universe.new rng0).width * (Universe.new rng0).height ∧
    (Universe.new rng0).width = CELL_SIZE ∧ (Universe.new rng0).height = CELL_SIZE :=
  C5_reachable_invariant (Universe.new rng0) (Reachable.new rng0)

/-! ### Clearing the grid (C6) -/

/-- The element at `j` after the fill loop of `dead_all`. -/
theorem deadFill_getElem? (n : Nat) (cs : List Cell) (j : Nat) :
    ((List.range n).foldl (fun cells i => cells.set i Cell.Dead) cs)[j]? =
      if j < n ∧ j < cs.length then some Cell.Dead else cs[j]? := by
  have h := offset_fold_getElem? (fun _ => Cell.Dead) cs 0 n j
  have he : (fun (a : List Cell) (col : Nat) => a.set (0 + col) Cell.Dead)
      = fun cells i => cells.set i Cell.Dead := by
    funext a i
    rw [Nat.zero_add]
  rw [he] at h
  rw [h]
  by_cases h1 : j < n
  · rw [if_pos (by omega : 0 ≤ j ∧ j < 0 + n)]
    by_cases h2 : j < cs.length
    · rw [if_pos h2, if_pos (by omega)]
    · rw [if_neg h2, if_neg (by omega), List.getElem?_eq_none (by omega)]
  · rw [if_neg (by omega), if_neg (by omega)]

/-- C6: `clear` (source `dead_all`) zeroes the generation counter, makes
every cell Dead, stops the simulation (`running = false`), arms rendering
(`renderArmed = true`), and is idempotent. -/
theorem C6_clear (u : Universe) (hwf : u.cells.length = u.width * u.height) :
    u.dead_all.count = 0 ∧ (∀ x ∈ u.dead_all.cells, x = Cell.Dead) ∧
    u.dead_all.calc_state = false ∧ u.dead_all.draw_state = true ∧
    u.dead_all.dead_all = u.dead_all := by
  have hall : ∀ x ∈ u.dead_all.cells, x = Cell.Dead := by
    intro x hx
    obtain ⟨j, hj, hjx⟩ := List.getElem_of_mem hx
    have hq : u.dead_all.cells[j]? = some x := by
      rw [List.getElem?_eq_getElem hj, hjx]
    have hjlen : j < u.cells.length := by
      have hlen := dead_all_cells_length u
      omega
    rw [show u.dead_all.cells
        = (List.range (u.width * u.height)).foldl (fun cells i => cells.set i Cell.Dead) u.cells
      from rfl, deadFill_getElem?, if_pos ⟨by omega, hjlen⟩] at hq
    exact (Option.some_injective _ hq).symm
  refine ⟨rfl, hall, rfl, rfl, ?_⟩
  apply Universe.ext <;> try rfl
  · show (u.dead_all.dead_all).cells = u.dead_all.cells
    apply List.ext_getElem?
    intro j
    have hdims := dead_all_dims u
    show ((List.range (u.dead_all.width * u.dead_all.height)).foldl
        (fun cells i => cells.set i Cell.Dead) u.dead_all.cells)[j]? = _
    rw [deadFill_getElem?]
    by_cases h1 : j < u.dead_all.width * u.dead_all.height ∧ j < u.dead_all.cells.length
    · rw [if_pos h1]
      have hlen : j < u.cells.length := by
        have := dead_all_cells_length u
        omega
      have := deadFill_getElem? (u.width * u.height) u.cells j
      rw [show u.dead_all.cells
          = (List.range (u.width * u.height)).foldl (fun cells i => cells.set i Cell.Dead) u.cells
        from rfl, this, if_pos ⟨by rw [hdims.1, hdims.2] at h1; exact h1.1, hlen⟩]
    · rw [if_neg h1]

/-- Witness for C6 at a concrete paused 2×2 universe. -/
theorem C6_clear_witness :
    pausedU.dead_all.count = 0 ∧ pausedU.dead_all.calc_state = false ∧
    pausedU.dead_all.draw_state = true ∧
    pausedU.dead_all.dead_all = pausedU.dead_all :=
  ⟨(C6_clear pausedU (by decide)).1, (C6_clear pausedU (by decide)).2.2.1,
   (C6_clear pausedU (by decide)).2.2.2.1, (C6_clear pausedU (by decide)).2.2.2.2⟩

/-! ### In-range edits (C9) -/

/-- Row-major indices of in-range coordinates are below `width * height`. -/
theorem rowmajor_lt (w h row col : Nat) (hr : row < h) (hc : col < w) :
    row * w + col < w * h := by
  calc row * w + col < row * w + w := by omega
    _ = (row + 1) * w := by ring
    _ ≤ h * w := Nat.mul_le_mul_right _ (by omega)
    _ = w * h := Nat.mul_comm _ _

/-- C9: an in-range edit (`0 ≤ col < width`, `0 ≤ row < height`) sets exactly
the cell at row-major index `row * width + col` to the given value and leaves
every other cell, the dimensions, the generation counter and both flags
unchanged. -/
theorem C9_edit_in_range (u : Universe) (cell : Cell) (c r : Int)
    (h0c : 0 ≤ c) (hcw : c < (u.width : Int)) (h0r : 0 ≤ r) (hrh : r < (u.height : Int))
    (hwf : u.cells.length = u.width * u.height) (hU : u.width * u.height ≤ U32)
    (hwI : u.width < I32_BOUND) (hhI : u.height < I32_BOUND) :
    (u.draw_change cell c r).cells[r.toNat * u.width + c.toNat]? = some cell ∧
    (∀ j, j ≠ r.toNat * u.width + c.toNat →
      (u.draw_change cell c r).cells[j]? = u.cells[j]?) ∧
    (u.draw_change cell c r).width = u.width ∧
    (u.draw_change cell c r).height = u.height ∧
    (u.draw_change cell c r).count = u.count ∧
    (u.draw_change cell c r).calc_state = u.calc_state ∧
    (u.draw_change cell c r).draw_state = u.draw_state := by
  have hguard : ¬(c ≥ Universe.i32ofU32 u.width ∨ r ≥ Universe.i32ofU32 u.height) := by
    push_neg
    constructor
    · simp only [Universe.i32ofU32, if_pos hwI]
      exact hcw
    · simp only [Universe.i32ofU32, if_pos hhI]
      exact hrh
  have hdc : u.draw_change cell c r
      = u.set_cell cell (Universe.u32ofI32 c) (Universe.u32ofI32 r) := by
    unfold Universe.draw_change
    rw [if_neg hguard]
  have hIU : (I32_BOUND : Int) < (U32 : Int) := by norm_num [I32_BOUND, U32]
  have hwi : (u.width : Int) < (I32_BOUND : Int) := by exact_mod_cast hwI
  have hhi : (u.height : Int) < (I32_BOUND : Int) := by exact_mod_cast hhI
  have hcN : Universe.u32ofI32 c = c.toNat := by
    unfold Universe.u32ofI32
    rw [Int.emod_eq_of_lt h0c (by omega)]
  have hrN : Universe.u32ofI32 r = r.toNat := by
    unfold Universe.u32ofI32
    rw [Int.emod_eq_of_lt h0r (by omega)]
  have hrlt : r.toNat < u.height := by omega
  have hclt : c.toNat < u.width := by omega
  have hidx : u.get_index r.toNat c.toNat = r.toNat * u.width + c.toNat :=
    get_index_eq u hU r.toNat c.toNat hrlt hclt
  rw [hdc, hcN, hrN]
  have hcells : (u.set_cell cell c.toNat r.toNat).cells
      = u.cells.set (r.toNat * u.width + c.toNat) cell := by
    show u.cells.set (u.get_index r.toNat c.toNat) cell = _
    rw [hidx]
  refine ⟨?_, ?_, rfl, rfl, rfl, rfl, rfl⟩
  · rw [hcells]
    apply List.getElem?_set_eq_of_lt
    rw [hwf]
    exact rowmajor_lt u.width u.height r.toNat c.toNat hrlt hclt
  · intro j hj
    rw [hcells]
    exact List.getElem?_set_ne (Ne.symm hj)

/-- Witness for C9: editing cell (row 1, col 1) of the concrete paused 2×2
universe stores the new value at index 3 and leaves index 0 and the
counter untouched. -/
theorem C9_edit_in_range_witness :
    (pausedU.draw_change Cell.Alive 1 1).cells[(1:Int).toNat * pausedU.width + (1:Int).toNat]?
      = some Cell.Alive ∧
    (pausedU.draw_change Cell.Alive 1 1).cells[0]? = pausedU.cells[0]? ∧
    (pausedU.draw_change Cell.Alive 1 1).count = pausedU.count :=
  ⟨(C9_edit_in_range pausedU Cell.Alive 1 1 (by decide) (by decide) (by decide) (by decide)
      (by decide) (by decide) (by decide) (by decide)).1,
   (C9_edit_in_range pausedU Cell.Alive 1 1 (by decide) (by decide) (by decide) (by decide)
      (by decide) (by decide) (by decide) (by decide)).2.1 0 (by decide),
   (C9_edit_in_range pausedU Cell.Alive 1 1 (by decide) (by decide) (by decide) (by decide)
      (by decide) (by decide) (by decide) (by decide)).2.2.2.2.1⟩

/-! ### Neighbor counting vs the Moore-8 spec (C2) -/

/-- Taking `toNat` of a mod by a positive modulus stays below the modulus. -/
theorem emod_toNat_lt (a : Int) (H : Nat) (h0 : 0 < H) : (a % (H : Int)).toNat < H := by
  have h1 : (0 : Int) < (H : Int) := by exact_mod_cast h0
  have h2 := Int.emod_lt_of_pos a h1
  have h3 := Int.emod_nonneg a (show (H : Int) ≠ 0 by omega)
  generalize hb : a % (H : Int) = b at h2 h3
  omega

/-- The `u32` wrap of the `-1` offset (`x + (H - 1)` mod `H`) agrees with the
integer `-1` offset mod `H`. -/
theorem wrap_m1 (H x : Nat) (h2 : 2 ≤ H) (hx : x < H) (hU : 2 * H ≤ U32) :
    ((x + (H - 1)) % U32) % H = (((x : Int) + (-1)) % (H : Int)).toNat := by
  have h1 : x + (H - 1) < U32 := by omega
  rw [Nat.mod_eq_of_lt h1]
  have he : ((x + (H - 1) : Nat) : Int) = (x : Int) + (-1) + (H : Int) := by
    push_cast
    omega
  calc (x + (H - 1)) % H
      = (((x + (H - 1) : Nat) : Int) % (H : Int)).toNat := rfl
    _ = (((x : Int) + (-1) + (H : Int)) % (H : Int)).toNat := by rw [he]
    _ = (((x : Int) + (-1)) % (H : Int)).toNat := by rw [Int.add_emod_self]

/-- The `u32` wrap of the `0` offset agrees with the integer `0` offset. -/
theorem wrap_0 (H x : Nat) (hx : x < H) (hU : H ≤ U32) :
    (x % U32) % H = ((x : Int) % (H : Int)).toNat := by
  rw [Nat.mod_eq_of_lt (by omega : x < U32)]
  rfl

/-- The `u32` wrap of the `+1` offset agrees with the integer `+1` offset. -/
theorem wrap_p1 (H x : Nat) (hx : x < H) (hU : 2 * H ≤ U32) :
    ((x + 1) % U32) % H = (((x : Int) + 1) % (H : Int)).toNat := by
  rw [Nat.mod_eq_of_lt (by omega : x + 1 < U32)]
  have he : (((x + 1 : Nat)) : Int) = (x : Int) + 1 := by push_cast; ring
  calc (x + 1) % H = (((x + 1 : Nat) : Int) % (H : Int)).toNat := rfl
    _ = (((x : Int) + 1) % (H : Int)).toNat := by rw [he]

/-- Any left-associated sum of eight cell values is at most 8. -/
theorem val_sum8_le (a b c d e f g k : Cell) :
    a.val + b.val + c.val + d.val + e.val + f.val + g.val + k.val ≤ 8 := by
  cases a <;> cases b <;> cases c <;> cases d <;> cases e <;> cases f <;>
    cases g <;> cases k <;> decide

/-- C2: for a grid with both dimensions at least 2 (as every grid this
program constructs — both are `CELL_SIZE = 64`) and any in-range `(row, col)`,
the source neighbor count equals the Moore-8 count of the spec with toroidal
wraparound (so the cell at `(0,0)` counts `(height-1, width-1)`,
`(height-1, 0)`, `(0, width-1)`, …), and the result is at most 8. -/
theorem C2_neighbor_count (u : Universe)
    (hwf : u.cells.length = u.width * u.height) (hU : u.width * u.height ≤ U32)
    (hh2 : 2 ≤ u.height) (hw2 : 2 ≤ u.width)
    (row col : Nat) (hr : row < u.height) (hc : col < u.width) :
    u.live_neighbor_count row col = mooreCount u row col ∧
    u.live_neighbor_count row col ≤ 8 := by
  have hU2h : 2 * u.height ≤ U32 := by
    have h1 : 2 * u.height ≤ u.width * u.height := Nat.mul_le_mul_right u.height hw2
    omega
  have hU2w : 2 * u.width ≤ U32 := by
    have h1 : 2 * u.width ≤ u.height * u.width := Nat.mul_le_mul_right u.width hh2
    have h2 : u.height * u.width = u.width * u.height := Nat.mul_comm _ _
    omega
  have hhne : ¬(u.height - 1 = 0) := by omega
  have hwne : ¬(u.width - 1 = 0) := by omega
  have hm1r := wrap_m1 u.height row hh2 hr hU2h
  have h0r := wrap_0 u.height row hr (by omega)
  have hp1r := wrap_p1 u.height row hr hU2h
  have hm1c := wrap_m1 u.width col hw2 hc hU2w
  have h0c := wrap_0 u.width col hc (by omega)
  have hp1c := wrap_p1 u.width col hc hU2w
  constructor
  · simp only [Universe.live_neighbor_count, mooreCount, List.foldl_cons, List.foldl_nil,
      hhne, hwne, false_and, and_false, true_and, and_true, if_false, if_true,
      eq_self_iff_true, one_ne_zero, neg_eq_zero, Nat.add_zero, add_zero, Nat.zero_add,
      zero_add]
    rw [hm1r, h0r, hp1r, hm1c, h0c, hp1c]
    rw [get_index_eq u hU _ _ (emod_toNat_lt _ _ (by omega)) (emod_toNat_lt _ _ (by omega)),
      get_index_eq u hU _ _ (emod_toNat_lt _ _ (by omega)) (emod_toNat_lt _ _ (by omega)),
      get_index_eq u hU _ _ (emod_toNat_lt _ _ (by omega)) (emod_toNat_lt _ _ (by omega)),
      get_index_eq u hU _ _ (emod_toNat_lt _ _ (by omega)) (emod_toNat_lt _ _ (by omega)),
      get_index_eq u hU _ _ (emod_toNat_lt _ _ (by omega)) (emod_toNat_lt _ _ (by omega)),
      get_index_eq u hU _ _ (emod_toNat_lt _ _ (by omega)) (emod_toNat_lt _ _ (by omega)),
      get_index_eq u hU _ _ (emod_toNat_lt _ _ (by omega)) (emod_toNat_lt _ _ (by omega)),
      get_index_eq u hU _ _ (emod_toNat_lt _ _ (by omega)) (emod_toNat_lt _ _ (by omega))]
  · simp only [Universe.live_neighbor_count, List.foldl_cons, List.foldl_nil,
      hhne, hwne, false_and, and_false, true_and, and_true, if_false, if_true,
      eq_self_iff_true, one_ne_zero, Nat.add_zero, add_zero, Nat.zero_add, zero_add]
    exact val_sum8_le _ _ _ _ _ _ _ _

/-- Witness for C2 at the corner cell `(0,0)` of the 5×5 blinker universe. -/
theorem C2_neighbor_count_witness :
    blinkerU.live_neighbor_count 0 0 = mooreCount blinkerU 0 0 ∧
    blinkerU.live_neighbor_count 0 0 ≤ 8 :=
  C2_neighbor_count blinkerU (by decide) (by decide) (by decide) (by decide)
    0 0 (by decide) (by decide)
